import Mathlib

/-!
Shallow embedding of `trello_sprint/main.py`.

The Board Gateway (py-trello), the issue tracker (python-bugzilla) and the
member-resolution remote call are external collaborators; they are modelled
as explicit data (`Board`, `TrelloList`, `Card`) and environment functions
(`Env.full_name`, `BzEnv.getbug`).  Global mutable state of the script
(`MEMBERS_CACHE`, `_INCLUDE_MEMBERS`) is threaded explicitly: the cache as an
association list, the flag inside `Env`.  Python's `float` arithmetic in
`percentage` is modelled over `ℚ` (the identities claimed about it are exact
in IEEE arithmetic on the integer counts involved, so `ℚ` is faithful here).
-/

/-- Python `str.upper()`, character by character (the names in scope are
ASCII, where this matches Python's Unicode-aware mapping). -/
def str_upper (s : String) : String :=
  ⟨s.data.map Char.toUpper⟩

/-- Python `str.lower()`, character by character (ASCII data in scope). -/
def str_lower (s : String) : String :=
  ⟨s.data.map Char.toLower⟩

/-- Python `str.split(sep)` for a one-character separator, over the character
list: splits at every occurrence, keeping empty segments (so it always
returns at least one segment). -/
def split_char (sep : Char) : List Char → List (List Char)
  | [] => [[]]
  | c :: rest =>
    let r := split_char sep rest
    if c = sep then [] :: r
    else
      match r with
      | [] => [[c]]
      | g :: gs => (c :: g) :: gs

/-- Constant `LABEL_UNPLANNED = 'UNPLANNED'` from the source. -/
def LABEL_UNPLANNED : String := "UNPLANNED"

/-- Constant `FIELD_BUGZILLA = 'BUGZILLA'` from the source. -/
def FIELD_BUGZILLA : String := "BUGZILLA"

/-- Constant `FIELD_PM_SCORE = 'PM_SCORE'` from the source. -/
def FIELD_PM_SCORE : String := "PM_SCORE"

/-- A card label, as supplied by the Board Gateway (`l.name`). -/
structure Label where
  name : String
deriving DecidableEq, Repr

/-- A card custom field (`cf.name`, `cf.value`). -/
structure CustomField where
  name : String
  value : String
deriving DecidableEq, Repr

/-- A raw card from the Board Gateway.  `labels` is `Option` because the
py-trello attribute may be `None` (the source guards with `card.labels or []`). -/
structure Card where
  name : String
  labels : Option (List Label)
  custom_fields : List CustomField
  member_id : List String
deriving DecidableEq, Repr

/-- A Trello list: a name plus the cards `list_cards()` returns, in gateway
order. -/
structure TrelloList where
  name : String
  cards : List Card
deriving DecidableEq, Repr

/-- An open board as returned by `CLIENT.list_boards('open')`. -/
structure Board where
  name : String
deriving DecidableEq, Repr

/-- Errors the embedded code can raise: `ListNotFound(msg)` from `get_list`,
and Python's `KeyError` from `parse_qs(...)['id']` in `set_pm_score`. -/
inductive Err where
  | listNotFound (msg : String)
  | keyError (key : String)
deriving DecidableEq, Repr

/-- The environment of one run: the `_INCLUDE_MEMBERS` global flag and the
Board Gateway's member lookup (`Member(CLIENT, mid).fetch()` yielding
`member.full_name`). -/
structure Env where
  include_members : Bool
  full_name : String → String

/-- Cache `MEMBERS_CACHE`: a Python dict from member id to full name, modelled as an
association list queried with `List.lookup` (first hit; keys are never
inserted twice, mirroring the `if mid not in MEMBERS_CACHE` guard). -/
abbrev MCache := List (String × String)

/-- Python source:
```
def get_board(name):
    boards = CLIENT.list_boards('open')
    for b in boards:
        if b.name == name:
            return b
```
Falls off the end returning `None` when no open board matches exactly. -/
def get_board (boards : List Board) (name : String) : Option Board :=
  boards.find? (fun b => b.name == name)

/-- Message of `ListNotFound('List named "%s" was not found' % name)`;
`name` has already been lowercased when the exception is built. -/
def list_not_found_msg (name : String) : String :=
  "List named \"" ++ name ++ "\" was not found"

/-- Python source:
```
def get_list(lists, name):
    name = name.lower()
    for l in lists:
        if l.name.lower() == name:
            return l
    else:
        raise ListNotFound('List named "%s" was not found' % name)
```
-/
def get_list (lists : List TrelloList) (name : String) : Except Err TrelloList :=
  match lists.find? (fun l => str_lower l.name == str_lower name) with
  | some l => Except.ok l
  | none => Except.error (Err.listNotFound (list_not_found_msg (str_lower name)))

/-- The member-resolution loop of `list_members_from_card`: walks the card's
member ids; a cache miss performs one remote fetch (recorded in the third
component) and stores the name; the appended name is always read back from the
cache.  Returns `(members, cache, remote lookups performed, in order)`. -/
def resolveMembers (env : Env) : MCache → List String → List String × MCache × List String
  | cache, [] => ([], cache, [])
  | cache, mid :: rest =>
    match List.lookup mid cache with
    | some nm =>
      let r := resolveMembers env cache rest
      (nm :: r.1, r.2.1, r.2.2)
    | none =>
      let nm := env.full_name mid
      let r := resolveMembers env ((mid, nm) :: cache) rest
      (nm :: r.1, r.2.1, mid :: r.2.2)

/-- Python source:
```
def list_members_from_card(card):
    members = []
    if not _INCLUDE_MEMBERS or not card.member_id:
        return members
    for mid in card.member_id:
        if mid not in MEMBERS_CACHE:
            member = Member(CLIENT, mid)
            member.fetch()
            MEMBERS_CACHE[mid] = member.full_name
        members.append(MEMBERS_CACHE[mid])
    return members
```
-/
def list_members_from_card (env : Env) (cache : MCache) (card : Card) :
    List String × MCache × List String :=
  if !env.include_members || card.member_id.isEmpty then ([], cache, [])
  else resolveMembers env cache card.member_id

/-- Python source:
```
def is_card_unplanned(card):
    for l in card.labels or []:
        if l.name.upper() == LABEL_UNPLANNED:
            return True
    return False
```
-/
def is_card_unplanned (card : Card) : Bool :=
  (card.labels.getD []).any (fun l => str_upper l.name == LABEL_UNPLANNED)

/-- The custom-field loop inside `parse_cards_from_list`:
```
for cf in c.custom_fields:
    if cf.name.upper() == FIELD_BUGZILLA:
        card['bugzilla'] = cf.value
```
Repeated assignment means the last matching field wins; no match leaves the
key absent (`None` via `card.get('bugzilla')`). -/
def bugzilla_of_fields (cfs : List CustomField) : Option String :=
  cfs.foldl (fun acc cf => if str_upper cf.name == FIELD_BUGZILLA then some cf.value else acc)
    none

/-- The per-card dict built inside `parse_cards_from_list`:
`{'_object': c, 'members': ..., 'unplanned': ..., 'bugzilla': ..., 'name': ...}`. -/
structure ParsedCard where
  obj : Card
  members : List String
  unplanned : Bool
  bugzilla : Option String
  name : String
deriving DecidableEq, Repr

/-- Builds one card's dict; also returns the updated member cache and the
remote member lookups performed. -/
def parse_card (env : Env) (cache : MCache) (c : Card) : ParsedCard × MCache × List String :=
  let r := list_members_from_card env cache c
  ({ obj := c, members := r.1, unplanned := is_card_unplanned c,
     bugzilla := bugzilla_of_fields c.custom_fields, name := c.name }, r.2.1, r.2.2)

/-- Result of the card loop of `parse_cards_from_list`: the
`cards = {'planned': [], 'unplanned': []}` buckets, plus the threaded member
cache and the accumulated remote member lookups. -/
structure ParsedList where
  planned : List ParsedCard
  unplanned : List ParsedCard
  cache : MCache
  lookups : List String
deriving DecidableEq, Repr

/-- The `for c in tlist.list_cards():` loop of `parse_cards_from_list`:
each card is appended to exactly one bucket, in gateway order. -/
def parse_cards_loop (env : Env) : MCache → List Card → ParsedList
  | cache, [] => { planned := [], unplanned := [], cache := cache, lookups := [] }
  | cache, c :: rest =>
    let pc := parse_card env cache c
    let r := parse_cards_loop env pc.2.1 rest
    if pc.1.unplanned then
      { planned := r.planned, unplanned := pc.1 :: r.unplanned,
        cache := r.cache, lookups := pc.2.2 ++ r.lookups }
    else
      { planned := pc.1 :: r.planned, unplanned := r.unplanned,
        cache := r.cache, lookups := pc.2.2 ++ r.lookups }

/-- Python source:
```
def parse_cards_from_list(lists, list_name):
    cards = {'planned': [], 'unplanned': []}
    tlist = get_list(lists, list_name)
    for c in tlist.list_cards():
        ...
    return cards
```
`ListNotFound` from `get_list` propagates. -/
def parse_cards_from_list (env : Env) (cache : MCache) (lists : List TrelloList)
    (list_name : String) : Except Err ParsedList :=
  match get_list lists list_name with
  | Except.error e => Except.error e
  | Except.ok tlist => Except.ok (parse_cards_loop env cache tlist.cards)

/-- Python source:
```
def percentage(part, whole):
    try:
        return 100 * float(part)/float(whole)
    except ZeroDivisionError:
        return 100
```
-/
def percentage (part whole : ℚ) : ℚ :=
  if whole = 0 then 100 else 100 * part / whole

/-- The aggregates `print_report` computes and renders. -/
structure Report where
  units_planned_done : ℕ
  units_unplanned_done : ℕ
  units_planned : ℕ
  units_unplanned : ℕ
  percent_planned_achieved : ℚ
  percent_unplanned_achieved : ℚ
deriving DecidableEq, Repr

/-- The aggregate computation of `print_report`: four snapshots in fixed
order (threading the member cache, which starts the run empty), then counts
and percentages exactly as the source computes them.  Any `ListNotFound`
propagates, producing no report. -/
def print_report (env : Env) (lists : List TrelloList) : Except Err Report :=
  match parse_cards_from_list env [] lists "Sprint Backlog" with
  | Except.error e => Except.error e
  | Except.ok sprint_backlog_cards =>
  match parse_cards_from_list env sprint_backlog_cards.cache lists "Doing" with
  | Except.error e => Except.error e
  | Except.ok doing_cards =>
  match parse_cards_from_list env doing_cards.cache lists "In Review" with
  | Except.error e => Except.error e
  | Except.ok in_review_cards =>
  match parse_cards_from_list env in_review_cards.cache lists "Done" with
  | Except.error e => Except.error e
  | Except.ok done_cards =>
    let units_planned_done := done_cards.planned.length
    let units_unplanned_done := done_cards.unplanned.length
    let units_planned := sprint_backlog_cards.planned.length +
                         doing_cards.planned.length +
                         in_review_cards.planned.length +
                         units_planned_done
    let units_unplanned := sprint_backlog_cards.unplanned.length +
                           doing_cards.unplanned.length +
                           in_review_cards.unplanned.length +
                           units_unplanned_done
    Except.ok
      { units_planned_done := units_planned_done
        units_unplanned_done := units_unplanned_done
        units_planned := units_planned
        units_unplanned := units_unplanned
        percent_planned_achieved := percentage units_planned_done units_planned
        percent_unplanned_achieved := percentage units_unplanned_done units_unplanned }

/-- Query component `urlparse(url).query`: the fragment is split off at the
first `#`, then the query is everything after the first `?` of what remains
(`split('?', 1)`, modelled as a full split rejoined with `?`). -/
def url_query (url : String) : String :=
  let nofrag := (split_char '#' url.data).headD []
  match split_char '?' nofrag with
  | [] => ""
  | [_] => ""
  | _ :: rest => ⟨List.intercalate ['?'] rest⟩

/-- Pairs `urllib.parse.parse_qs(query)` keeps, in order: fields are split on
`&`, each field on the first `=`; fields with no `=` or an empty value are
dropped (default `keep_blank_values=False`).  Percent-decoding is the
identity on the URLs in scope (no percent escapes or `+` in the `id`
parameter of a bug URL) and is omitted. -/
def qs_pairs (query : String) : List (String × String) :=
  (split_char '&' query.data).filterMap (fun field =>
    match split_char '=' field with
    | [] => none
    | [_] => none
    | k :: rest =>
      let v := List.intercalate ['='] rest
      if v = [] then none else some (⟨k⟩, ⟨v⟩))

/-- Lookup `parse_qs(query)[key][0]`: the first value listed under `key`;
`none` models the `KeyError` when the key is absent. -/
def qs_first (query : String) (key : String) : Option String :=
  List.lookup key (qs_pairs query)

/-- A bug record returned by `bzapi.getbug`, with its `cf_pm_score`
priority-score attribute. -/
structure Bug where
  cf_pm_score : ℚ
deriving DecidableEq, Repr

/-- The issue-tracker collaborator: `bzapi.getbug(id)`. -/
structure BzEnv where
  getbug : String → Bug

/-- Python `int()` on a numeric value truncates toward zero. -/
def int_trunc (q : ℚ) : ℤ :=
  if 0 ≤ q then ⌊q⌋ else ⌈q⌉

/-- Observable outcome of the synchronization loop: issue-tracker queries
(`getbug` arguments, in order), the `Setting PM_SCORE for "%s" to %s` log
lines (card name, raw score), the writes to each card's `PM_SCORE` custom
field (card, integer value), and the error that aborted the pass, if any. -/
structure SyncOut where
  queries : List String
  logs : List (String × ℚ)
  writes : List (Card × ℤ)
  err : Option Err
deriving DecidableEq, Repr

/-- The `for card in backlog_cards['planned'] + backlog_cards['unplanned']:`
loop of `set_pm_score`:
```
bz_url = card.get('bugzilla')
if bz_url is None:
    continue
bug = bzapi.getbug(parse_qs(urlparse(bz_url).query)['id'][0])
print('Setting PM_SCORE for "%s" to %s' % (card['name'], bug.cf_pm_score))
cf = card['_object'].get_custom_field_by_name(FIELD_PM_SCORE)
cf.value = int(bug.cf_pm_score)
```
A missing `id` query parameter raises `KeyError` before `getbug` is called,
aborting the rest of the loop; effects already performed stay. -/
def sync_units (bz : BzEnv) : List ParsedCard → SyncOut
  | [] => { queries := [], logs := [], writes := [], err := none }
  | pc :: rest =>
    match pc.bugzilla with
    | none => sync_units bz rest
    | some bz_url =>
      match qs_first (url_query bz_url) "id" with
      | none => { queries := [], logs := [], writes := [], err := some (Err.keyError "id") }
      | some i =>
        let bug := bz.getbug i
        let out := sync_units bz rest
        { queries := i :: out.queries
          logs := (pc.name, bug.cf_pm_score) :: out.logs
          writes := (pc.obj, int_trunc bug.cf_pm_score) :: out.writes
          err := out.err }

/-- Python source:
```
def set_pm_score(lists):
    backlog_cards = parse_cards_from_list(lists, 'Backlog')
    bzapi = bugzilla.Bugzilla(_BUGZILLA_URL)
    if not bzapi.logged_in:
        bzapi.interactive_login()
    for card in backlog_cards['planned'] + backlog_cards['unplanned']:
        ...
```
(The login handshake is an external-collaborator effect with no bearing on
the loop's data flow.) -/
def set_pm_score (env : Env) (bz : BzEnv) (lists : List TrelloList) : Except Err SyncOut :=
  match parse_cards_from_list env [] lists "Backlog" with
  | Except.error e => Except.error e
  | Except.ok backlog_cards =>
      Except.ok (sync_units bz (backlog_cards.planned ++ backlog_cards.unplanned))

/-- Number of planned cards a list holds (spec-side count used to state the
report aggregates). -/
def planned_count (l : TrelloList) : ℕ :=
  (l.cards.filter (fun c => !is_card_unplanned c)).length

/-- Number of unplanned cards a list holds. -/
def unplanned_count (l : TrelloList) : ℕ :=
  (l.cards.filter (fun c => is_card_unplanned c)).length

/-- Concrete run configuration with member inclusion disabled. -/
def sample_env0 : Env := { include_members := false, full_name := fun m => m }

/-- Concrete run configuration with member inclusion enabled. -/
def sample_env : Env := { include_members := true, full_name := fun m => "N" ++ m }

/-- Concrete issue tracker whose every bug has priority score 7. -/
def sample_bz : BzEnv := { getbug := fun _ => { cf_pm_score := 7 } }

/-- A card with no labels, fields or members. -/
def sample_card (nm : String) : Card :=
  { name := nm, labels := some [], custom_fields := [], member_id := [] }

/-- A card carrying an `Unplanned` label (mixed case). -/
def sample_unplanned_card (nm : String) : Card :=
  { name := nm, labels := some [{ name := "Unplanned" }], custom_fields := [], member_id := [] }

/-- A card with the given assigned member ids. -/
def sample_mcard (nm : String) (ids : List String) : Card :=
  { name := nm, labels := some [], custom_fields := [], member_id := ids }

/-- A card carrying two custom fields whose names case-insensitively equal
`BUGZILLA`, plus an unrelated one. -/
def sample_bzcard : Card :=
  { name := "bz", labels := none,
    custom_fields := [{ name := "bugzilla", value := "u1" },
                      { name := "Bugzilla", value := "u2" },
                      { name := "other", value := "x" }],
    member_id := [] }

/-- A list holding two planned cards around one unplanned card. -/
def sample_mixed_list : TrelloList :=
  { name := "Backlog", cards := [sample_card "p1", sample_unplanned_card "u1", sample_card "p2"] }

/-- A board's four workflow lists: three empty, `Done` holding two planned
cards. -/
def sample_lists : List TrelloList :=
  [ { name := "Sprint Backlog", cards := [] },
    { name := "Doing", cards := [] },
    { name := "In Review", cards := [] },
    { name := "Done", cards := [sample_card "d1", sample_card "d2"] } ]

/-- A well-formed bug reference URL. -/
def sample_url : String := "https://bugzilla.redhat.com/show_bug.cgi?id=12345"

/-- A malformed bug reference URL: no `id` query parameter. -/
def sample_bad_url : String := "https://bugzilla.redhat.com/show_bug.cgi?notid=1"

/-- A parsed backlog unit with no bugzilla reference. -/
def sample_unit_nobz : ParsedCard :=
  { obj := sample_card "c1", members := [], unplanned := false, bugzilla := none, name := "c1" }

/-- A parsed backlog unit with a well-formed bugzilla reference. -/
def sample_unit_bz : ParsedCard :=
  { obj := sample_card "c2", members := [], unplanned := false,
    bugzilla := some sample_url, name := "c2" }

/-- A parsed backlog unit with a malformed bugzilla reference. -/
def sample_unit_badbz : ParsedCard :=
  { obj := sample_card "c3", members := [], unplanned := true,
    bugzilla := some sample_bad_url, name := "c3" }

/-- A successful list lookup makes `parse_cards_from_list` run the card loop
on the found list. -/
theorem parse_cards_from_list_ok (env : Env) (cache : MCache) (lists : List TrelloList)
    (name : String) (tl : TrelloList) (h : get_list lists name = Except.ok tl) :
    parse_cards_from_list env cache lists name
      = Except.ok (parse_cards_loop env cache tl.cards) := by
  simp [parse_cards_from_list, h]

/-- A failed list lookup propagates unchanged through
`parse_cards_from_list`. -/
theorem parse_cards_from_list_err (env : Env) (cache : MCache) (lists : List TrelloList)
    (name : String) (e : Err) (h : get_list lists name = Except.error e) :
    parse_cards_from_list env cache lists name = Except.error e := by
  simp [parse_cards_from_list, h]

/-- A board returned by `get_board` is the first open board whose name equals
the request exactly. -/
theorem get_board_eq_some (boards : List Board) (name : String) (b : Board)
    (hb : get_board boards name = some b) :
    b.name = name ∧ ∃ pre post, boards = pre ++ b :: post ∧ ∀ x ∈ pre, x.name ≠ name := by
  induction boards with
  | nil => simp [get_board] at hb
  | cons hd tl ih =>
    rw [get_board] at hb
    by_cases h : hd.name = name
    · rw [List.find?_cons_of_pos _ (by simp [h])] at hb
      cases hb
      exact ⟨h, [], tl, rfl, by simp⟩
    · rw [List.find?_cons_of_neg _ (by simp [h])] at hb
      obtain ⟨h1, pre, post, heq, hpre⟩ := ih hb
      refine ⟨h1, hd :: pre, post, by rw [heq]; rfl, ?_⟩
      intro x hx
      rcases List.mem_cons.mp hx with rfl | hx
      · exact h
      · exact hpre x hx

/-- With no exact name match among the open boards, `get_board` returns
`none`. -/
theorem get_board_eq_none (boards : List Board) (name : String)
    (h : ∀ b ∈ boards, b.name ≠ name) : get_board boards name = none := by
  rw [get_board, List.find?_eq_none]
  intro x hx
  simpa using h x hx

/-- Folding the custom-field override loop equals taking the last matching
field: the fold's result is the first match of the reversed field list (with
the accumulator as fallback). -/
theorem bugzilla_foldl_eq (cfs : List CustomField) (acc : Option String) :
    cfs.foldl (fun a cf => if str_upper cf.name == FIELD_BUGZILLA then some cf.value else a) acc
      = match cfs.reverse.find? (fun cf => str_upper cf.name == FIELD_BUGZILLA) with
        | some cf => some cf.value
        | none => acc := by
  induction cfs generalizing acc with
  | nil => simp
  | cons cf rest ih =>
    rw [List.foldl_cons, ih, List.reverse_cons, List.find?_append]
    cases hfind : rest.reverse.find? (fun cf => str_upper cf.name == FIELD_BUGZILLA) with
    | some cf2 => simp
    | none =>
      by_cases h : (str_upper cf.name == FIELD_BUGZILLA) = true
      · simp [List.find?, h]
      · simp [List.find?, h]

/-- The extracted bugzilla reference is the value of the last custom field
whose name uppercases to `BUGZILLA`, if any. -/
theorem bugzilla_of_fields_eq (cfs : List CustomField) :
    bugzilla_of_fields cfs
      = (cfs.reverse.find? (fun cf => str_upper cf.name == FIELD_BUGZILLA)).map
          CustomField.value := by
  rw [bugzilla_of_fields, bugzilla_foldl_eq]
  cases hfind : cfs.reverse.find? (fun cf => str_upper cf.name == FIELD_BUGZILLA) <;> simp

/-- The planned bucket of the card loop is exactly the planned cards, in
gateway order. -/
theorem parse_cards_loop_planned (env : Env) (cache : MCache) (cs : List Card) :
    (parse_cards_loop env cache cs).planned.map ParsedCard.obj
      = cs.filter (fun c => !is_card_unplanned c) := by
  induction cs generalizing cache with
  | nil => simp [parse_cards_loop]
  | cons c rest ih =>
    cases h : is_card_unplanned c with
    | false => simp [parse_cards_loop, parse_card, h, ih, List.filter_cons]
    | true => simp [parse_cards_loop, parse_card, h, ih, List.filter_cons]

/-- The unplanned bucket of the card loop is exactly the unplanned cards, in
gateway order. -/
theorem parse_cards_loop_unplanned (env : Env) (cache : MCache) (cs : List Card) :
    (parse_cards_loop env cache cs).unplanned.map ParsedCard.obj
      = cs.filter (fun c => is_card_unplanned c) := by
  induction cs generalizing cache with
  | nil => simp [parse_cards_loop]
  | cons c rest ih =>
    cases h : is_card_unplanned c with
    | false => simp [parse_cards_loop, parse_card, h, ih, List.filter_cons]
    | true => simp [parse_cards_loop, parse_card, h, ih, List.filter_cons]

/-- Bucket sizes of the card loop do not depend on the cache: planned. -/
theorem parse_cards_loop_planned_length (env : Env) (cache : MCache) (cs : List Card) :
    (parse_cards_loop env cache cs).planned.length
      = (cs.filter (fun c => !is_card_unplanned c)).length := by
  rw [← parse_cards_loop_planned env cache cs, List.length_map]

/-- Bucket sizes of the card loop do not depend on the cache: unplanned. -/
theorem parse_cards_loop_unplanned_length (env : Env) (cache : MCache) (cs : List Card) :
    (parse_cards_loop env cache cs).unplanned.length
      = (cs.filter (fun c => is_card_unplanned c)).length := by
  rw [← parse_cards_loop_unplanned env cache cs, List.length_map]

/-- C3: for all integers `part` and `whole`, `percentage part 0 = 100`,
`percentage 0 whole = 0` when `whole > 0`, and `percentage whole whole = 100`
when `whole > 0`: the zero denominator is treated as fully achieved, not
undefined. -/
theorem spec_c3 (part whole : ℤ) :
    percentage (part : ℚ) 0 = 100
    ∧ (0 < whole → percentage 0 (whole : ℚ) = 0)
    ∧ (0 < whole → percentage (whole : ℚ) (whole : ℚ) = 100) := by
  refine ⟨by simp [percentage], ?_, ?_⟩
  · intro h
    have hw : (whole : ℚ) ≠ 0 := Int.cast_ne_zero.mpr h.ne'
    simp [percentage, hw]
  · intro h
    have hw : (whole : ℚ) ≠ 0 := Int.cast_ne_zero.mpr h.ne'
    rw [percentage, if_neg hw, mul_div_assoc, div_self hw, mul_one]

theorem spec_c3_witness :
    percentage ((5 : ℤ) : ℚ) 0 = 100
    ∧ percentage 0 ((3 : ℤ) : ℚ) = 0
    ∧ percentage ((3 : ℤ) : ℚ) ((3 : ℤ) : ℚ) = 100 :=
  ⟨(spec_c3 5 3).1, (spec_c3 5 3).2.1 (by decide), (spec_c3 5 3).2.2 (by decide)⟩

/-- C10: board lookup, unlike list lookup, compares names case-sensitively:
`get_board` returns the first open board whose name equals the request
exactly, and returns `none` (no error) when no open board's name matches
exactly. -/
theorem spec_c10 (boards : List Board) (name : String) :
    (∀ b, get_board boards name = some b →
        b.name = name ∧ ∃ pre post, boards = pre ++ b :: post ∧ ∀ x ∈ pre, x.name ≠ name)
    ∧ ((∀ b ∈ boards, b.name ≠ name) → get_board boards name = none) :=
  ⟨fun b hb => get_board_eq_some boards name b hb, get_board_eq_none boards name⟩

theorem spec_c10_witness :
    ((Board.mk "Done").name = "Done"
      ∧ ∃ pre post, [Board.mk "done", Board.mk "Done"] = pre ++ Board.mk "Done" :: post
          ∧ ∀ x ∈ pre, x.name ≠ "Done")
    ∧ get_board [Board.mk "doing"] "Doing" = none :=
  ⟨(spec_c10 [Board.mk "done", Board.mk "Done"] "Done").1 (Board.mk "Done") rfl,
   (spec_c10 [Board.mk "doing"] "Doing").2 (by decide)⟩

/-- C7: during score synchronization, a backlog unit with no extracted
bugzilla reference is skipped silently: the run's queries, writes, log lines
and error status are exactly those of the run without that unit. -/
theorem spec_c7 (bz : BzEnv) (pc : ParsedCard) (rest : List ParsedCard)
    (h : pc.bugzilla = none) :
    sync_units bz (pc :: rest) = sync_units bz rest := by
  simp [sync_units, h]

theorem spec_c7_witness : sync_units sample_bz [sample_unit_nobz] = sync_units sample_bz [] :=
  spec_c7 sample_bz sample_unit_nobz [] rfl

/-- C9: a backlog unit with a well-formed bugzilla reference (query parameter
`id` present) makes the synchronizer query the tracker for that id, report
the update (card name and score), and write the truncated score into the
card's custom field, before processing the remaining units. -/
theorem spec_c9 (bz : BzEnv) (pc : ParsedCard) (rest : List ParsedCard) (url i : String)
    (h1 : pc.bugzilla = some url) (h2 : qs_first (url_query url) "id" = some i) :
    sync_units bz (pc :: rest) =
      { queries := i :: (sync_units bz rest).queries
        logs := (pc.name, (bz.getbug i).cf_pm_score) :: (sync_units bz rest).logs
        writes := (pc.obj, int_trunc (bz.getbug i).cf_pm_score) :: (sync_units bz rest).writes
        err := (sync_units bz rest).err } := by
  simp [sync_units, h1, h2]

theorem spec_c9_witness :
    sync_units sample_bz [sample_unit_bz] =
      { queries := "12345" :: (sync_units sample_bz []).queries
        logs := (sample_unit_bz.name, (sample_bz.getbug "12345").cf_pm_score)
                  :: (sync_units sample_bz []).logs
        writes := (sample_unit_bz.obj, int_trunc (sample_bz.getbug "12345").cf_pm_score)
                  :: (sync_units sample_bz []).writes
        err := (sync_units sample_bz []).err } :=
  spec_c9 sample_bz sample_unit_bz [] sample_url "12345" rfl (by decide)

/-- C5: the extracted bugzilla reference of a parsed card is the value of the
last custom field (in gateway order) whose name case-insensitively equals
`BUGZILLA` (last-write-wins); with no such field the reference is unset
(`none`), without error. -/
theorem spec_c5 (env : Env) (cache : MCache) (c : Card) :
    (parse_card env cache c).1.bugzilla
      = (c.custom_fields.reverse.find? (fun cf => str_upper cf.name == FIELD_BUGZILLA)).map
          CustomField.value
    ∧ ((∀ cf ∈ c.custom_fields, str_upper cf.name ≠ FIELD_BUGZILLA) →
        (parse_card env cache c).1.bugzilla = none) := by
  have hb : (parse_card env cache c).1.bugzilla = bugzilla_of_fields c.custom_fields := rfl
  constructor
  · rw [hb, bugzilla_of_fields_eq]
  · intro h
    rw [hb, bugzilla_of_fields_eq]
    have : c.custom_fields.reverse.find? (fun cf => str_upper cf.name == FIELD_BUGZILLA)
        = none := by
      rw [List.find?_eq_none]
      intro cf hcf
      simpa using h cf (List.mem_reverse.mp hcf)
    rw [this]
    rfl

theorem spec_c5_witness :
    (parse_card sample_env0 [] sample_bzcard).1.bugzilla = some "u2"
    ∧ (parse_card sample_env0 [] (sample_card "p")).1.bugzilla = none :=
  ⟨(spec_c5 sample_env0 [] sample_bzcard).1,
   (spec_c5 sample_env0 [] (sample_card "p")).2 (by decide)⟩

/-- C1: a card is classified unplanned iff it carries a label whose name,
uppercased, equals `UNPLANNED`; and for a found list, `parse_cards_from_list`
runs the card loop, whose two buckets partition the list's cards — planned
bucket = exactly the non-unplanned cards, unplanned bucket = exactly the
unplanned cards, each in the order the Board Gateway returned them. -/
theorem spec_c1 (c : Card) (env : Env) (cache : MCache) (lists : List TrelloList)
    (nm : String) (tl : TrelloList) (h : get_list lists nm = Except.ok tl) :
    (is_card_unplanned c = true ↔ ∃ l ∈ c.labels.getD [], str_upper l.name = LABEL_UNPLANNED)
    ∧ parse_cards_from_list env cache lists nm = Except.ok (parse_cards_loop env cache tl.cards)
    ∧ (parse_cards_loop env cache tl.cards).planned.map ParsedCard.obj
        = tl.cards.filter (fun c2 => !is_card_unplanned c2)
    ∧ (parse_cards_loop env cache tl.cards).unplanned.map ParsedCard.obj
        = tl.cards.filter (fun c2 => is_card_unplanned c2) := by
  refine ⟨?_, parse_cards_from_list_ok env cache lists nm tl h,
    parse_cards_loop_planned env cache tl.cards,
    parse_cards_loop_unplanned env cache tl.cards⟩
  simp [is_card_unplanned, List.any_eq_true]

theorem spec_c1_witness :
    (is_card_unplanned (sample_unplanned_card "u1") = true
      ↔ ∃ l ∈ (sample_unplanned_card "u1").labels.getD [],
          str_upper l.name = LABEL_UNPLANNED)
    ∧ parse_cards_from_list sample_env0 [] [sample_mixed_list] "Backlog"
        = Except.ok (parse_cards_loop sample_env0 [] sample_mixed_list.cards)
    ∧ (parse_cards_loop sample_env0 [] sample_mixed_list.cards).planned.map ParsedCard.obj
        = sample_mixed_list.cards.filter (fun c2 => !is_card_unplanned c2)
    ∧ (parse_cards_loop sample_env0 [] sample_mixed_list.cards).unplanned.map ParsedCard.obj
        = sample_mixed_list.cards.filter (fun c2 => is_card_unplanned c2) :=
  spec_c1 (sample_unplanned_card "u1") sample_env0 [] [sample_mixed_list] "Backlog"
    sample_mixed_list rfl

/-- A list returned by `get_list` is in the collection and matches the target
name ignoring case. -/
theorem get_list_ok_mem (lists : List TrelloList) (name : String) (tl : TrelloList)
    (h : get_list lists name = Except.ok tl) :
    tl ∈ lists ∧ str_lower tl.name = str_lower name := by
  rw [get_list] at h
  cases hfind : lists.find? (fun l => str_lower l.name == str_lower name) with
  | none => rw [hfind] at h; simp at h
  | some l =>
    rw [hfind] at h
    cases h
    exact ⟨List.mem_of_find?_eq_some hfind, by simpa using List.find?_some hfind⟩

/-- When some list matches the target name ignoring case, `get_list`
succeeds. -/
theorem get_list_exists_ok (lists : List TrelloList) (name : String)
    (hex : ∃ l ∈ lists, str_lower l.name = str_lower name) :
    ∃ tl, get_list lists name = Except.ok tl := by
  obtain ⟨l, hl, hn⟩ := hex
  cases hfind : lists.find? (fun l => str_lower l.name == str_lower name) with
  | some tl => exact ⟨tl, by rw [get_list, hfind]⟩
  | none =>
    rw [List.find?_eq_none] at hfind
    exact absurd hn (by simpa using hfind l hl)

/-- When no list matches the target name ignoring case, `get_list` raises
`ListNotFound` with the lowercased name in the message. -/
theorem get_list_none (lists : List TrelloList) (name : String)
    (h : ∀ l ∈ lists, str_lower l.name ≠ str_lower name) :
    get_list lists name
      = Except.error (Err.listNotFound (list_not_found_msg (str_lower name))) := by
  have hfind : lists.find? (fun l => str_lower l.name == str_lower name) = none := by
    rw [List.find?_eq_none]
    intro x hx
    simpa using h x hx
  rw [get_list, hfind]

/-- A failed lookup of any of the four report lists makes `print_report`
return an error: no partial report is produced. -/
theorem print_report_error_of_lookup (env : Env) (lists : List TrelloList) (e : Err)
    (h : get_list lists "Sprint Backlog" = Except.error e
      ∨ get_list lists "Doing" = Except.error e
      ∨ get_list lists "In Review" = Except.error e
      ∨ get_list lists "Done" = Except.error e) :
    ∃ e2, print_report env lists = Except.error e2 := by
  cases h1 : get_list lists "Sprint Backlog" with
  | error e1 =>
    have q1 : ∀ cache, parse_cards_from_list env cache lists "Sprint Backlog"
        = Except.error e1 := fun cache => parse_cards_from_list_err env cache lists _ e1 h1
    exact ⟨e1, by simp [print_report, q1]⟩
  | ok sb =>
    have p1 : ∀ cache, parse_cards_from_list env cache lists "Sprint Backlog"
        = Except.ok (parse_cards_loop env cache sb.cards) :=
      fun cache => parse_cards_from_list_ok env cache lists _ sb h1
    cases h2 : get_list lists "Doing" with
    | error e2 =>
      have q2 : ∀ cache, parse_cards_from_list env cache lists "Doing"
          = Except.error e2 := fun cache => parse_cards_from_list_err env cache lists _ e2 h2
      exact ⟨e2, by simp [print_report, p1, q2]⟩
    | ok doing =>
      have p2 : ∀ cache, parse_cards_from_list env cache lists "Doing"
          = Except.ok (parse_cards_loop env cache doing.cards) :=
        fun cache => parse_cards_from_list_ok env cache lists _ doing h2
      cases h3 : get_list lists "In Review" with
      | error e3 =>
        have q3 : ∀ cache, parse_cards_from_list env cache lists "In Review"
            = Except.error e3 := fun cache => parse_cards_from_list_err env cache lists _ e3 h3
        exact ⟨e3, by simp [print_report, p1, p2, q3]⟩
      | ok rev =>
        have p3 : ∀ cache, parse_cards_from_list env cache lists "In Review"
            = Except.ok (parse_cards_loop env cache rev.cards) :=
          fun cache => parse_cards_from_list_ok env cache lists _ rev h3
        cases h4 : get_list lists "Done" with
        | error e4 =>
          have q4 : ∀ cache, parse_cards_from_list env cache lists "Done"
              = Except.error e4 := fun cache => parse_cards_from_list_err env cache lists _ e4 h4
          exact ⟨e4, by simp [print_report, p1, p2, p3, q4]⟩
        | ok done =>
          rcases h with h' | h' | h' | h'
          · simp [h1] at h'
          · simp [h2] at h'
          · simp [h3] at h'
          · simp [h4] at h'

/-- C4: list lookup succeeds exactly when some list's whole name equals the
target ignoring case, and then returns such a list; with no match it fails
with `ListNotFound`, which propagates through `parse_cards_from_list` and —
for any of the four report lists — makes the whole report command fail with
no partial report. -/
theorem spec_c4 (lists : List TrelloList) (name : String) :
    ((∃ l ∈ lists, str_lower l.name = str_lower name) ↔ ∃ tl, get_list lists name = Except.ok tl)
    ∧ (∀ tl, get_list lists name = Except.ok tl →
        tl ∈ lists ∧ str_lower tl.name = str_lower name)
    ∧ ((∀ l ∈ lists, str_lower l.name ≠ str_lower name) →
        get_list lists name
            = Except.error (Err.listNotFound (list_not_found_msg (str_lower name)))
        ∧ ∀ env cache, parse_cards_from_list env cache lists name
            = Except.error (Err.listNotFound (list_not_found_msg (str_lower name))))
    ∧ (∀ env e, (get_list lists "Sprint Backlog" = Except.error e
          ∨ get_list lists "Doing" = Except.error e
          ∨ get_list lists "In Review" = Except.error e
          ∨ get_list lists "Done" = Except.error e) →
        ∃ e2, print_report env lists = Except.error e2) := by
  refine ⟨⟨fun hex => get_list_exists_ok lists name hex, fun hex => ?_⟩,
    fun tl htl => get_list_ok_mem lists name tl htl,
    fun h => ⟨get_list_none lists name h,
      fun env cache => parse_cards_from_list_err env cache lists name _
        (get_list_none lists name h)⟩,
    fun env e h => print_report_error_of_lookup env lists e h⟩
  obtain ⟨tl, htl⟩ := hex
  obtain ⟨h1, h2⟩ := get_list_ok_mem lists name tl htl
  exact ⟨tl, h1, h2⟩

theorem spec_c4_witness :
    (∃ tl, get_list sample_lists "sprint backlog" = Except.ok tl)
    ∧ (get_list [] "Backlog"
          = Except.error (Err.listNotFound (list_not_found_msg (str_lower "Backlog")))
        ∧ ∀ env cache, parse_cards_from_list env cache [] "Backlog"
            = Except.error (Err.listNotFound (list_not_found_msg (str_lower "Backlog"))))
    ∧ (∃ e2, print_report sample_env0 [] = Except.error e2) :=
  ⟨(spec_c4 sample_lists "sprint backlog").1.mp
      ⟨{ name := "Sprint Backlog", cards := [] }, by decide, by decide⟩,
   (spec_c4 [] "Backlog").2.2.1 (by decide),
   (spec_c4 [] "Sprint Backlog").2.2.2 sample_env0
      (Err.listNotFound (list_not_found_msg (str_lower "Sprint Backlog")))
      (Or.inl rfl)⟩

/-- C2: when all four workflow lists are found, the report's aggregates are:
done counts from the "Done" list, totals summed over "Sprint Backlog",
"Doing", "In Review" and "Done", and achievement percentages given by
`percentage` of done over total, for planned and unplanned respectively. -/
theorem spec_c2 (env : Env) (lists : List TrelloList) (sb doing rev done : TrelloList)
    (hsb : get_list lists "Sprint Backlog" = Except.ok sb)
    (hdo : get_list lists "Doing" = Except.ok doing)
    (hir : get_list lists "In Review" = Except.ok rev)
    (hdn : get_list lists "Done" = Except.ok done) :
    print_report env lists = Except.ok
      { units_planned_done := planned_count done
        units_unplanned_done := unplanned_count done
        units_planned :=
          planned_count sb + planned_count doing + planned_count rev + planned_count done
        units_unplanned :=
          unplanned_count sb + unplanned_count doing + unplanned_count rev + unplanned_count done
        percent_planned_achieved :=
          percentage (planned_count done)
            (planned_count sb + planned_count doing + planned_count rev + planned_count done)
        percent_unplanned_achieved :=
          percentage (unplanned_count done)
            (unplanned_count sb + unplanned_count doing + unplanned_count rev
              + unplanned_count done) } := by
  have p1 : ∀ cache, parse_cards_from_list env cache lists "Sprint Backlog"
      = Except.ok (parse_cards_loop env cache sb.cards) :=
    fun cache => parse_cards_from_list_ok env cache lists _ sb hsb
  have p2 : ∀ cache, parse_cards_from_list env cache lists "Doing"
      = Except.ok (parse_cards_loop env cache doing.cards) :=
    fun cache => parse_cards_from_list_ok env cache lists _ doing hdo
  have p3 : ∀ cache, parse_cards_from_list env cache lists "In Review"
      = Except.ok (parse_cards_loop env cache rev.cards) :=
    fun cache => parse_cards_from_list_ok env cache lists _ rev hir
  have p4 : ∀ cache, parse_cards_from_list env cache lists "Done"
      = Except.ok (parse_cards_loop env cache done.cards) :=
    fun cache => parse_cards_from_list_ok env cache lists _ done hdn
  simp only [print_report, p1, p2, p3, p4]
  simp [planned_count, unplanned_count, parse_cards_loop_planned_length,
    parse_cards_loop_unplanned_length]

theorem spec_c2_witness :
    print_report sample_env0 sample_lists = Except.ok
      { units_planned_done := 2
        units_unplanned_done := 0
        units_planned := 2
        units_unplanned := 0
        percent_planned_achieved := 100
        percent_unplanned_achieved := 100 } := by
  rw [spec_c2 sample_env0 sample_lists
    { name := "Sprint Backlog", cards := [] }
    { name := "Doing", cards := [] }
    { name := "In Review", cards := [] }
    { name := "Done", cards := [sample_card "d1", sample_card "d2"] }
    rfl rfl rfl rfl]
  norm_num [planned_count, unplanned_count, percentage, sample_card, is_card_unplanned,
    str_upper]

/-- C8: a malformed bugzilla reference (no `id` query parameter) aborts the
synchronization pass at that unit: the outcome records only the effects of
the earlier (well-formed or reference-free) units, carries the `KeyError`,
and is independent of every later unit. -/
theorem spec_c8 (bz : BzEnv) (pre : List ParsedCard) (pc : ParsedCard)
    (rest : List ParsedCard) (url : String)
    (hok : ∀ q ∈ pre, q.bugzilla = none
      ∨ ∃ u i, q.bugzilla = some u ∧ qs_first (url_query u) "id" = some i)
    (h1 : pc.bugzilla = some url) (h2 : qs_first (url_query url) "id" = none) :
    sync_units bz (pre ++ pc :: rest) =
      { queries := (sync_units bz pre).queries
        logs := (sync_units bz pre).logs
        writes := (sync_units bz pre).writes
        err := some (Err.keyError "id") } := by
  revert hok
  induction pre with
  | nil =>
    intro _
    simp [sync_units, h1, h2]
  | cons q pre ih =>
    intro hok
    have hok2 : ∀ r ∈ pre, r.bugzilla = none
        ∨ ∃ u i, r.bugzilla = some u ∧ qs_first (url_query u) "id" = some i :=
      fun r hr => hok r (List.mem_cons_of_mem _ hr)
    rcases hok q (List.mem_cons_self _ _) with hq | ⟨u, i, hu, hi⟩
    · rw [List.cons_append]
      rw [show sync_units bz (q :: (pre ++ pc :: rest)) = sync_units bz (pre ++ pc :: rest) from
        by simp [sync_units, hq]]
      rw [show sync_units bz (q :: pre) = sync_units bz pre from by simp [sync_units, hq]]
      exact ih hok2
    · rw [List.cons_append]
      simp only [sync_units, hu, hi, ih hok2]

theorem spec_c8_witness :
    sync_units sample_bz ([sample_unit_bz] ++ sample_unit_badbz :: [sample_unit_bz]) =
      { queries := (sync_units sample_bz [sample_unit_bz]).queries
        logs := (sync_units sample_bz [sample_unit_bz]).logs
        writes := (sync_units sample_bz [sample_unit_bz]).writes
        err := some (Err.keyError "id") } :=
  spec_c8 sample_bz [sample_unit_bz] sample_unit_badbz [sample_unit_bz] sample_bad_url
    (by
      intro q hq
      rw [List.mem_singleton] at hq
      subst hq
      exact Or.inr ⟨sample_url, "12345", rfl, by decide⟩)
    rfl (by decide)

/-- Lookup in an extended association cache fails iff the key differs from
the new entry and lookup already failed. -/
theorem lookup_cons_none (k mid nm : String) (cache : MCache) :
    List.lookup k ((mid, nm) :: cache) = none ↔ k ≠ mid ∧ List.lookup k cache = none := by
  by_cases h : k = mid
  · subst h
    simp [List.lookup_cons]
  · have hb : (k == mid) = false := beq_eq_false_iff_ne.mpr h
    simp [List.lookup_cons, hb, h]

/-- The member names returned by the resolution loop are the card's member
ids, in order, each resolved against the incoming cache with the remote
lookup as fallback. -/
theorem resolveMembers_members (env : Env) (cache : MCache) (ids : List String) :
    (resolveMembers env cache ids).1
      = ids.map (fun m => (List.lookup m cache).getD (env.full_name m)) := by
  induction ids generalizing cache with
  | nil => simp [resolveMembers]
  | cons mid rest ih =>
    cases hl : List.lookup mid cache with
    | some nm => simp [resolveMembers, hl, ih cache]
    | none =>
      have hcons : ∀ m, (List.lookup m ((mid, env.full_name mid) :: cache)).getD (env.full_name m)
          = (List.lookup m cache).getD (env.full_name m) := by
        intro m
        by_cases hm : m = mid
        · subst hm
          simp [List.lookup_cons, hl]
        · simp [List.lookup_cons, beq_eq_false_iff_ne.mpr hm]
      simp [resolveMembers, hl, ih, hcons]

/-- After the resolution loop, a key is absent from the cache iff it was
absent before and is none of the processed ids. -/
theorem resolveMembers_cache_none (env : Env) (cache : MCache) (ids : List String) (k : String) :
    List.lookup k (resolveMembers env cache ids).2.1 = none
      ↔ List.lookup k cache = none ∧ k ∉ ids := by
  induction ids generalizing cache with
  | nil => simp [resolveMembers]
  | cons mid rest ih =>
    cases hl : List.lookup mid cache with
    | some nm =>
      rw [show (resolveMembers env cache (mid :: rest)).2.1
          = (resolveMembers env cache rest).2.1 from by simp [resolveMembers, hl]]
      rw [ih cache]
      constructor
      · rintro ⟨h1, h2⟩
        refine ⟨h1, ?_⟩
        simp only [List.mem_cons, not_or]
        refine ⟨?_, h2⟩
        rintro rfl
        simp [h1] at hl
      · rintro ⟨h1, h2⟩
        exact ⟨h1, fun hk => h2 (List.mem_cons_of_mem _ hk)⟩
    | none =>
      rw [show (resolveMembers env cache (mid :: rest)).2.1
          = (resolveMembers env ((mid, env.full_name mid) :: cache) rest).2.1 from
        by simp [resolveMembers, hl]]
      rw [ih ((mid, env.full_name mid) :: cache)]
      constructor
      · rintro ⟨h1, h2⟩
        obtain ⟨hne, hnone⟩ := (lookup_cons_none k mid (env.full_name mid) cache).mp h1
        refine ⟨hnone, ?_⟩
        simp only [List.mem_cons, not_or]
        exact ⟨hne, h2⟩
      · rintro ⟨h1, h2⟩
        simp only [List.mem_cons, not_or] at h2
        exact ⟨(lookup_cons_none k mid (env.full_name mid) cache).mpr ⟨h2.1, h1⟩, h2.2⟩

/-- The resolution loop performs exactly one remote lookup for a key iff the
key is among the ids and was not already cached, and none otherwise. -/
theorem resolveMembers_count (env : Env) (cache : MCache) (ids : List String) (k : String) :
    (resolveMembers env cache ids).2.2.count k
      = if List.lookup k cache = none ∧ k ∈ ids then 1 else 0 := by
  induction ids generalizing cache with
  | nil => simp [resolveMembers]
  | cons mid rest ih =>
    cases hl : List.lookup mid cache with
    | some nm =>
      rw [show (resolveMembers env cache (mid :: rest)).2.2
          = (resolveMembers env cache rest).2.2 from by simp [resolveMembers, hl]]
      rw [ih cache]
      by_cases hk : k = mid
      · subst hk
        simp [hl]
      · by_cases h1 : List.lookup k cache = none
        · by_cases h2 : k ∈ rest
          · rw [if_pos ⟨h1, h2⟩, if_pos ⟨h1, List.mem_cons_of_mem _ h2⟩]
          · rw [if_neg (fun h => h2 h.2), if_neg (fun h => (List.mem_cons.mp h.2).elim hk h2)]
        · rw [if_neg (fun h => h1 h.1), if_neg (fun h => h1 h.1)]
    | none =>
      rw [show (resolveMembers env cache (mid :: rest)).2.2
          = mid :: (resolveMembers env ((mid, env.full_name mid) :: cache) rest).2.2 from
        by simp [resolveMembers, hl]]
      rw [List.count_cons, ih ((mid, env.full_name mid) :: cache)]
      by_cases hk : k = mid
      · subst hk
        have hc : ¬ (List.lookup k ((k, env.full_name k) :: cache) = none ∧ k ∈ rest) := by
          rintro ⟨hc1, -⟩
          exact ((lookup_cons_none k k (env.full_name k) cache).mp hc1).1 rfl
        simp [hc, hl]
      · have hb : (mid == k) = false := beq_eq_false_iff_ne.mpr fun h => hk h.symm
        have hc' : List.lookup k ((mid, env.full_name mid) :: cache) = none
            ↔ List.lookup k cache = none := by
          rw [lookup_cons_none]
          simp [hk]
        rw [hb]
        simp only [Bool.false_eq_true, if_false, Nat.add_zero]
        by_cases h1 : List.lookup k cache = none
        · by_cases h2 : k ∈ rest
          · rw [if_pos ⟨hc'.mpr h1, h2⟩, if_pos ⟨h1, List.mem_cons_of_mem _ h2⟩]
          · rw [if_neg (fun h => h2 h.2), if_neg (fun h => (List.mem_cons.mp h.2).elim hk h2)]
        · rw [if_neg (fun h => h1 (hc'.mp h.1)), if_neg (fun h => h1 h.1)]

/-- With member inclusion enabled, `list_members_from_card` is exactly the
resolution loop over the card's member ids (also when there are none). -/
theorem list_members_eq_resolve (env : Env) (cache : MCache) (c : Card)
    (henv : env.include_members = true) :
    list_members_from_card env cache c = resolveMembers env cache c.member_id := by
  rw [list_members_from_card, henv]
  cases hmi : c.member_id with
  | nil => simp [resolveMembers]
  | cons a l => simp

/-- The cache after one card of the loop feeds the rest of the loop. -/
theorem parse_cards_loop_cons_cache (env : Env) (cache : MCache) (c : Card)
    (rest : List Card) :
    (parse_cards_loop env cache (c :: rest)).cache
      = (parse_cards_loop env (parse_card env cache c).2.1 rest).cache := by
  cases h : (parse_card env cache c).1.unplanned <;> simp [parse_cards_loop, h]

/-- The remote lookups of the loop are the card's lookups followed by the
rest's. -/
theorem parse_cards_loop_cons_lookups (env : Env) (cache : MCache) (c : Card)
    (rest : List Card) :
    (parse_cards_loop env cache (c :: rest)).lookups
      = (parse_card env cache c).2.2
        ++ (parse_cards_loop env (parse_card env cache c).2.1 rest).lookups := by
  cases h : (parse_card env cache c).1.unplanned <;> simp [parse_cards_loop, h]

/-- With member inclusion enabled, a key is absent from the cache after the
card loop iff it was absent before and no processed card lists it. -/
theorem parse_cards_loop_cache_none (env : Env) (cache : MCache) (cs : List Card) (k : String)
    (henv : env.include_members = true) :
    List.lookup k (parse_cards_loop env cache cs).cache = none
      ↔ List.lookup k cache = none ∧ ∀ c ∈ cs, k ∉ c.member_id := by
  induction cs generalizing cache with
  | nil => simp [parse_cards_loop]
  | cons c rest ih =>
    rw [parse_cards_loop_cons_cache]
    have h2 : (parse_card env cache c).2.1 = (resolveMembers env cache c.member_id).2.1 := by
      simp [parse_card, list_members_eq_resolve env cache c henv]
    rw [h2, ih, resolveMembers_cache_none]
    simp only [List.forall_mem_cons, and_assoc]

/-- With member inclusion enabled, one run of the card loop (across all its
cards) performs exactly one remote lookup per distinct uncached member id,
and none for ids already cached or not assigned anywhere. -/
theorem parse_cards_loop_count (env : Env) (cache : MCache) (cs : List Card) (k : String)
    (henv : env.include_members = true) :
    (parse_cards_loop env cache cs).lookups.count k
      = if List.lookup k cache = none ∧ ∃ c ∈ cs, k ∈ c.member_id then 1 else 0 := by
  induction cs generalizing cache with
  | nil => simp [parse_cards_loop]
  | cons c rest ih =>
    rw [parse_cards_loop_cons_lookups, List.count_append]
    have e1 : (parse_card env cache c).2.2 = (resolveMembers env cache c.member_id).2.2 := by
      simp [parse_card, list_members_eq_resolve env cache c henv]
    have e2 : (parse_card env cache c).2.1 = (resolveMembers env cache c.member_id).2.1 := by
      simp [parse_card, list_members_eq_resolve env cache c henv]
    rw [e1, e2, resolveMembers_count, ih]
    by_cases hcache : List.lookup k cache = none
    · by_cases hmem : k ∈ c.member_id
      · have hnone : ¬ List.lookup k (resolveMembers env cache c.member_id).2.1 = none := by
          rw [resolveMembers_cache_none]
          rintro ⟨-, h⟩
          exact h hmem
        rw [if_pos ⟨hcache, hmem⟩, if_neg (fun h => hnone h.1),
          if_pos ⟨hcache, c, List.mem_cons_self _ _, hmem⟩]
      · have hcc : List.lookup k (resolveMembers env cache c.member_id).2.1 = none :=
          (resolveMembers_cache_none env cache c.member_id k).mpr ⟨hcache, hmem⟩
        rw [if_neg (fun h => hmem h.2)]
        by_cases hrest : ∃ c2 ∈ rest, k ∈ c2.member_id
        · obtain ⟨c2, hc2, hk2⟩ := hrest
          rw [if_pos ⟨hcc, c2, hc2, hk2⟩,
            if_pos ⟨hcache, c2, List.mem_cons_of_mem _ hc2, hk2⟩]
        · have hnx : ¬ ∃ c2 ∈ c :: rest, k ∈ c2.member_id := by
            rintro ⟨c2, hc2, hk2⟩
            rcases List.mem_cons.mp hc2 with rfl | hc2
            · exact hmem hk2
            · exact hrest ⟨c2, hc2, hk2⟩
          rw [if_neg (fun h => hrest h.2), if_neg (fun h => hnx h.2)]
    · have hcc : ¬ List.lookup k (resolveMembers env cache c.member_id).2.1 = none :=
        fun h => hcache ((resolveMembers_cache_none env cache c.member_id k).mp h).1
      rw [if_neg (fun h => hcache h.1), if_neg (fun h => hcc h.1),
        if_neg (fun h => hcache h.1)]

/-- C6: with member inclusion disabled or no assigned members, the
member-name list is empty, the cache is untouched and no remote lookup
occurs; with it enabled, ids are resolved in the card's member-id order
(cache value first, remote name otherwise, repeated ids yielding the same
name); and over one run started with an empty cache, each member id assigned
somewhere is remotely looked up exactly once, others never. -/
theorem spec_c6 (env : Env) (cache : MCache) (c : Card) (cs : List Card) (mid : String) :
    (env.include_members = false ∨ c.member_id = [] →
        list_members_from_card env cache c = ([], cache, []))
    ∧ (env.include_members = true →
        (list_members_from_card env cache c).1
          = c.member_id.map (fun m => (List.lookup m cache).getD (env.full_name m)))
    ∧ (env.include_members = true →
        (parse_cards_loop env [] cs).lookups.count mid
          = if ∃ c2 ∈ cs, mid ∈ c2.member_id then 1 else 0) := by
  refine ⟨?_, ?_, ?_⟩
  · rintro (h | h)
    · simp [list_members_from_card, h]
    · simp [list_members_from_card, h]
  · intro henv
    rw [list_members_eq_resolve env cache c henv, resolveMembers_members]
  · intro henv
    rw [parse_cards_loop_count env [] cs mid henv]
    by_cases hex : ∃ c2 ∈ cs, mid ∈ c2.member_id
    · rw [if_pos ⟨rfl, hex⟩, if_pos hex]
    · rw [if_neg (fun h => hex h.2), if_neg hex]

theorem spec_c6_witness :
    (list_members_from_card sample_env [] (sample_mcard "a" []) = ([], [], []))
    ∧ ((list_members_from_card sample_env [] (sample_mcard "a" ["m1", "m2", "m1"])).1
        = ["m1", "m2", "m1"].map
            (fun m => (List.lookup m ([] : MCache)).getD (sample_env.full_name m)))
    ∧ ((parse_cards_loop sample_env []
          [sample_mcard "a" ["m1"], sample_mcard "b" ["m1"]]).lookups.count "m1"
        = if ∃ c2 ∈ [sample_mcard "a" ["m1"], sample_mcard "b" ["m1"]], "m1" ∈ c2.member_id
          then 1 else 0) :=
  ⟨(spec_c6 sample_env [] (sample_mcard "a" []) [] "m1").1 (Or.inr rfl),
   (spec_c6 sample_env [] (sample_mcard "a" ["m1", "m2", "m1"]) [] "m1").2.1 rfl,
   (spec_c6 sample_env [] (sample_card "x")
      [sample_mcard "a" ["m1"], sample_mcard "b" ["m1"]] "m1").2.2 rfl⟩
